import Mathlib

/-
Shallow embedding of the Croissant market-intelligence dashboard
(filter widgets, line-chart preparation, cross-customer table and loader),
translated from the TypeScript sources:
  src/components/filters/GeographyMultiSelect.tsx
  src/components/filters/HierarchicalRegionSelect.tsx
  src/components/charts/MultiLineChart.tsx
  src/components/charts/CrossCustomerTable.tsx (and its unnamed twin)
  src/app/api/load-cross-customer/route.ts
JS numbers that only ever hold exact small values (years, record values)
are modelled as Int; string operations are modelled on the character list
of the Lean String, restricted to the ASCII behaviour the data exercises.
-/

namespace Croissant

/- ===== String normalization =====
   GeographyMultiSelect.tsx lines 84-94 and HierarchicalRegionSelect.tsx
   lines 83-93 contain the identical functions normalizeGeoName /
   findMatchingGeo; a single embedding covers both copies. -/

/-- JS regex class backslash-s, restricted to the ASCII whitespace characters. -/
def isWsChar (c : Char) : Bool :=
  c == ' ' || c == '\t' || c == '\n' || c == '\r' || c == '\x0b' || c == '\x0c'

/-- JS String.prototype.toLowerCase on ASCII data. -/
def toLowerStr (s : String) : String :=
  String.mk (s.data.map Char.toLower)

/-- JS String.prototype.trim: drop leading and trailing whitespace. -/
def trimStr (s : String) : String :=
  String.mk (((s.data.dropWhile isWsChar).reverse.dropWhile isWsChar).reverse)

/-- JS replace of every period by the empty string. -/
def stripPeriods (s : String) : String :=
  String.mk (s.data.filter (fun c => c != '.'))

/-- JS replace of every maximal whitespace run by a single space, on the
character list. -/
def collapseWs : List Char → List Char
  | [] => []
  | [c] => if isWsChar c then [' '] else [c]
  | c1 :: c2 :: rest =>
      if isWsChar c1 && isWsChar c2 then collapseWs (c2 :: rest)
      else (if isWsChar c1 then ' ' else c1) :: collapseWs (c2 :: rest)

def collapseWsStr (s : String) : String :=
  String.mk (collapseWs s.data)

/-- normalizeGeoName from the source: lower-case, trim, strip periods,
collapse whitespace runs, in that order. -/
def normalizeGeoName (name : String) : String :=
  collapseWsStr (stripPeriods (trimStr (toLowerStr name)))

/-- findMatchingGeo from the source: first available label whose normalized
form equals the query's normalized form, with the JS `result or-else null`
coercion that turns a found empty string into null. -/
def findMatchingGeo (geoName : String) (allGeographies : List String) : Option String :=
  match allGeographies.find? (fun geo => normalizeGeoName geo == normalizeGeoName geoName) with
  | some g => if g = "" then none else some g
  | none => none

/- ===== Geography hierarchy resolver ===== -/

/-- A node of the fixed reference taxonomy; in the source every child is a
leaf carrying only a name, so children are modelled by their names. -/
structure TemplateRegion where
  name : String
  children : List String
deriving DecidableEq, Repr

/-- The GEOGRAPHY_HIERARCHY / REGION_HIERARCHY constant (identical in both
filter components). -/
def GEOGRAPHY_HIERARCHY : List TemplateRegion :=
  [ ⟨"North America", ["U.S.", "Canada"]⟩,
    ⟨"Europe", ["U.K.", "Germany", "Italy", "France", "Spain", "Russia"]⟩,
    ⟨"Rest of Europe", []⟩,
    ⟨"Asia Pacific", ["China", "India", "Japan", "South Korea", "ASEAN", "Australia"]⟩,
    ⟨"Rest of Asia Pacific", []⟩,
    ⟨"Latin America", ["Brazil", "Argentina", "Mexico"]⟩,
    ⟨"Rest of Latin America", []⟩,
    ⟨"Middle East", ["GCC", "Israel"]⟩,
    ⟨"Rest of Middle East", []⟩,
    ⟨"Africa", ["North Africa"]⟩ ]

/-- An output node of buildHierarchy: canonical (or placeholder) name, the
optional matched-children list (undefined in JS when no child matched), and
the existsInData flag. -/
structure ResolvedRegion where
  name : String
  children : Option (List String)
  existsInData : Bool
deriving DecidableEq, Repr

/-- Resolution of one template region, as performed inside buildHierarchy. -/
def resolveRegion (allGeos : List String) (region : TemplateRegion) : ResolvedRegion :=
  let matchedRegionName := findMatchingGeo region.name allGeos
  let matchedChildren := region.children.filterMap (fun child => findMatchingGeo child allGeos)
  { name := matchedRegionName.getD region.name,
    children := if 0 < matchedChildren.length then some matchedChildren else none,
    existsInData := matchedRegionName.isSome || decide (0 < matchedChildren.length) }

/-- buildHierarchy from the source: resolve every template region, keep the
ones that exist in the data. -/
def buildHierarchy (template : List TemplateRegion) (allGeos : List String) : List ResolvedRegion :=
  (template.map (resolveRegion allGeos)).filter (fun region => region.existsInData)

/-- The matchedGeos set accumulated by buildHierarchy: for each template
region, its matched children followed by its own match when present. -/
def matchedGeos (template : List TemplateRegion) (allGeos : List String) : List String :=
  template.flatMap (fun region =>
    region.children.filterMap (fun child => findMatchingGeo child allGeos)
      ++ (findMatchingGeo region.name allGeos).toList)

/-- The unmatched bucket: available labels not in the matched set, in their
original order. -/
def unmatchedGeographies (template : List TemplateRegion) (allGeos : List String) : List String :=
  allGeos.filter (fun geo => decide (geo ∉ matchedGeos template allGeos))

/- ===== Region-level toggle (GeographyMultiSelect.tsx lines 234-264) ===== -/

/-- The labels of a region that are present in the data: the region's own
name when it is an available geography, followed by every child that is. -/
def regionGeos (allGeographies : List String) (region : ResolvedRegion) : List String :=
  (if region.name ∈ allGeographies then [region.name] else [])
    ++ (region.children.getD []).filter (fun child => decide (child ∈ allGeographies))

/-- handleSelectRegion from the source: when all of the region's data labels
are selected, delete them all from the selection; otherwise add them all.
The JS Set of selected geographies is modelled as a Finset (the claim it
serves is about membership only). -/
def handleSelectRegion (allGeographies : List String) (region : ResolvedRegion)
    (current : Finset String) : Finset String :=
  let rg := regionGeos allGeographies region
  if rg.all (fun geo => decide (geo ∈ current)) then
    rg.foldl (fun s geo => s.erase geo) current
  else
    rg.foldl (fun s geo => insert geo s) current

/- ===== MultiLineChart.tsx ===== -/

/-- The viewMode union type of FilterCriteria. -/
inductive ViewMode
  | segmentMode
  | geographyMode
  | matrix
deriving DecidableEq, Repr

/-- One entry of advancedSegments. -/
structure AdvancedSegment where
  type : String
  name : String
deriving DecidableEq, Repr

/-- The FilterCriteria fields the chart pipeline reads (dataType only picks
which record list is handed in, so the dataset is an explicit argument). -/
structure FilterCriteria where
  viewMode : ViewMode
  segmentType : String
  geographies : List String
  segments : List String
  advancedSegments : List AdvancedSegment
  aggregationLevel : Option Int
  yearStart : Int
  yearEnd : Int
deriving DecidableEq, Repr

/-- A raw record of the geography-segment matrix. Values are exact in every
scenario the claims touch, so number is modelled as Int. -/
structure MarketRecord where
  year : Int
  geography : String
  segment : String
  segmentType : String
  value : Int
deriving DecidableEq, Repr

/-- MultiLineChart.tsx lines 35-48: the effective aggregation level. When no
advancedSegments entry has the criteria's segment type and no level is set,
default to level 2; when the user selected segments of that type, force no
aggregation. -/
def effectiveAggregationLevel (filters : FilterCriteria) : Option Int :=
  let segmentsFromSameType := filters.advancedSegments.filter (fun seg => seg.type == filters.segmentType)
  let hasUserSelectedSegments := decide (0 < segmentsFromSameType.length)
  if !hasUserSelectedSegments && filters.aggregationLevel.isNone then some 2
  else if hasUserSelectedSegments then none
  else filters.aggregationLevel

/-- MultiLineChart.tsx line 60: geography mode unconditionally substitutes
the fixed segment type By Region. -/
def effectiveSegmentType (filters : FilterCriteria) : String :=
  if filters.viewMode = ViewMode.geographyMode then "By Region" else filters.segmentType

/-- Modelled from the spec: filterData lives in the data-processor module,
which is not among the provided sources. Spec section 4.3 (MatrixFilter)
gives the inclusion predicate: year inside the inclusive yearRange, the
geography and segment dimensions unrestricted when their selection is
empty, and segmentType equal to the criteria's segment type; the filter is
order-preserving. -/
def filterData (records : List MarketRecord) (c : FilterCriteria) : List MarketRecord :=
  records.filter (fun r =>
    decide (c.yearStart ≤ r.year) && decide (r.year ≤ c.yearEnd)
      && (c.geographies.isEmpty || decide (r.geography ∈ c.geographies))
      && (c.segments.isEmpty || decide (r.segment ∈ c.segments))
      && r.segmentType == c.segmentType)

/-- A prepared chart point: the year plus the series entries of that year.
In JS this is one object whose keys are the literal key "year" plus the
series keys; the year key is separated structurally here, so extracting the
non-year keys of a point reads exactly its entries. -/
structure SeriesPoint where
  year : Int
  entries : List (String × Int)
deriving DecidableEq, Repr

/-- Order-preserving removal of later duplicates (JS Set insertion order). -/
def dedupFirstSeen {α : Type} [DecidableEq α] (l : List α) : List α :=
  l.foldl (fun acc x => if x ∈ acc then acc else acc ++ [x]) []

/-- Ascending insertion of an Int into a sorted list. -/
def insertAsc (y : Int) : List Int → List Int
  | [] => [y]
  | x :: xs => if y ≤ x then y :: x :: xs else x :: insertAsc y xs

/-- Ascending insertion sort. -/
def sortAsc (l : List Int) : List Int :=
  l.foldr insertAsc []

/-- Modelled from the spec: the shared grouping core of the two series
preparers of the data-processor module (not among the provided sources).
Spec section 4.4: group by (year, key), sum values within a group, order
points ascending by year, keep a key in a point only when at least one
record contributes to it, and order keys by first appearance across the
full filtered sequence. -/
def preparePoints (keyOf : MarketRecord → String) (filtered : List MarketRecord) : List SeriesPoint :=
  let keys := dedupFirstSeen (filtered.map keyOf)
  let years := sortAsc (dedupFirstSeen (filtered.map (fun r => r.year)))
  years.map (fun y =>
    { year := y,
      entries := keys.filterMap (fun k =>
        let contrib := filtered.filter (fun r => decide (r.year = y) && keyOf r == k)
        if contrib.isEmpty then none
        else some (k, (contrib.map (fun r => r.value)).foldl (fun a b => a + b) 0)) })

/-- Modelled from the spec: SegmentRollupResolver (spec section 4.2) is
contract-only there; labels outside the known taxonomy resolve to
themselves, and the taxonomy table itself is out of the spec's scope, so
the model keeps every label fixed. No claim depends on the table. -/
def segmentRollup (_level : Option Int) (label : String) : String :=
  label

/-- Modelled from the spec: prepareLineChartData of the data-processor
module (not among the provided sources), spec section 4.4 strategy (a):
level-aggregated grouping by the rollup key of the view mode's dimension. -/
def prepareLineChartData (filtered : List MarketRecord) (c : FilterCriteria) : List SeriesPoint :=
  preparePoints (fun r =>
    match c.viewMode with
    | ViewMode.geographyMode => r.geography
    | ViewMode.segmentMode => segmentRollup c.aggregationLevel r.segment
    | ViewMode.matrix => r.geography ++ "::" ++ r.segment) filtered

/-- Modelled from the spec: prepareIntelligentMultiLevelData of the
data-processor module (not among the provided sources), spec section 4.4
strategy (b): ungrouped leaf granularity, keyed by segment, geography, or
the composite geography-segment pair according to the view mode. -/
def prepareIntelligentMultiLevelData (filtered : List MarketRecord) (c : FilterCriteria) : List SeriesPoint :=
  preparePoints (fun r =>
    match c.viewMode with
    | ViewMode.segmentMode => r.segment
    | ViewMode.geographyMode => r.geography
    | ViewMode.matrix => r.geography ++ "::" ++ r.segment) filtered

/-- extractSeriesFromPreparedData from MultiLineChart.tsx lines 85-99: walk
every prepared point, insert every non-year key into a Set, return the Set
in insertion order. The year key is structural in the embedding, so the
walk reads the entries of each point. -/
def extractSeriesFromPreparedData (prepared : List SeriesPoint) : List String :=
  if prepared.isEmpty then []
  else prepared.foldl (fun acc p =>
    p.entries.foldl (fun acc2 kv => if kv.1 ∈ acc2 then acc2 else acc2 ++ [kv.1]) acc) []

/-- MultiLineChart.tsx line 77: the strategy selector. -/
def useLineChartData (filters : FilterCriteria) : Bool :=
  (effectiveAggregationLevel filters).isSome || decide (filters.viewMode = ViewMode.geographyMode)

/-- The value of the chartData memo. -/
structure ChartData where
  filtered : List MarketRecord
  prepared : List SeriesPoint
  series : List String
deriving DecidableEq, Repr

/-- The chartData computation of MultiLineChart.tsx lines 26-134: effective
aggregation level and segment type, modified filters, filtering, the
strategy choice between the two preparers, and the per-view-mode series
list (prepared-data keys for segment and geography mode, the distinct
geography-segment pairs of the filtered records for matrix mode). -/
def multiLineChartData (dataset : List MarketRecord) (filters : FilterCriteria) : ChartData :=
  let eff := effectiveAggregationLevel filters
  let modifiedFilters := { filters with
    aggregationLevel := eff,
    segmentType := effectiveSegmentType filters }
  let filtered := filterData dataset modifiedFilters
  let prepared :=
    if useLineChartData filters then prepareLineChartData filtered modifiedFilters
    else prepareIntelligentMultiLevelData filtered modifiedFilters
  let series :=
    match filters.viewMode with
    | ViewMode.segmentMode => extractSeriesFromPreparedData prepared
    | ViewMode.geographyMode => extractSeriesFromPreparedData prepared
    | ViewMode.matrix => dedupFirstSeen (filtered.map (fun r => r.geography ++ "::" ++ r.segment))
  ⟨filtered, prepared, series⟩

/- ===== CrossCustomerTable filtering =====
   CrossCustomerTable.tsx lines 79-121 and the identical block of its
   unnamed twin component. A row object is modelled as an association list
   from column name to cell text; a missing key reads as none. -/

abbrev Row : Type := List (String × String)

/-- JS property read row bracket key: the first binding of the key. -/
def rowGet (row : Row) (key : String) : Option String :=
  (row.find? (fun kv => kv.1 == key)).map (fun kv => kv.2)

/-- The long opportunity-score column name used by the table. -/
def opportunityScoreKey : String :=
  "Trivi Opportunity Score (High / Medium / Emerging)"

/-- Substring test on character lists (JS String.prototype.includes): the
needle is an initial run of the haystack. -/
def startsRun : List Char → List Char → Bool
  | [], _ => true
  | _ :: _, [] => false
  | n :: ns, h :: hs => n == h && startsRun ns hs

/-- Substring test on character lists: the needle occurs somewhere. -/
def containsRun (needle : List Char) : List Char → Bool
  | [] => startsRun needle []
  | h :: hs => startsRun needle (h :: hs) || containsRun needle hs

/-- The per-row predicate of filteredAndSortedRows: the search term (when
non-empty) must occur case-insensitively in some cell, the region filter
(when not the no-restriction value all) must equal the Region cell, and
likewise the opportunity-score filter. -/
def rowPasses (searchTerm selectedRegion selectedOpportunityScore : String) (row : Row) : Bool :=
  (if searchTerm ≠ "" then
     (row.map (fun kv => kv.2)).any (fun v =>
       containsRun (toLowerStr searchTerm).data (toLowerStr v).data)
   else true)
  && (if selectedRegion ≠ "all" && rowGet row "Region" != some selectedRegion then false else true)
  && (if selectedOpportunityScore ≠ "all"
         && rowGet row opportunityScoreKey != some selectedOpportunityScore then false
      else true)

/-- The filter stage of filteredAndSortedRows (the subsequent sort is
applied only when a sort column is chosen and permutes the result). -/
def filteredRows (searchTerm selectedRegion selectedOpportunityScore : String)
    (rows : List Row) : List Row :=
  rows.filter (rowPasses searchTerm selectedRegion selectedOpportunityScore)

/- ===== load-cross-customer route (route.ts lines 30-61) =====
   A spreadsheet cell is modelled as an optional string: none stands for an
   absent cell (undefined) or a null cell, which the JS nullish-coalescing
   step collapses to the empty string alike. -/

/-- The successful response body. -/
structure CrossResult where
  headers : List String
  rows : List Row
  totalRows : Nat
deriving DecidableEq

/-- One data row turned into an object: for every header at index i, the
cell at i or the empty string when the cell is absent or null. -/
def buildRow (headers : List String) (raw : List (Option String)) : Row :=
  headers.enum.map (fun ih => (ih.2, (raw.getD ih.1 none).getD ""))

/-- A built row survives the empty-row filter when some field is non-empty
(after the coalescing step no value is null or undefined any more). -/
def rowNonEmpty (row : Row) : Bool :=
  row.any (fun kv => kv.2 != "")

/-- The GET handler's data path: fail on fewer than two sheet rows, take
the first row as headers, turn every later row into an object, drop fully
empty rows, and report totalRows as the number of kept rows. -/
def loadCrossCustomer (rawData : List (List (Option String))) : Option CrossResult :=
  if rawData.length < 2 then none
  else
    let headers := (rawData.headD []).map (fun cell => cell.getD "")
    let rows := ((rawData.drop 1).map (buildRow headers)).filter rowNonEmpty
    some ⟨headers, rows, rows.length⟩

/- ===== Helper lemmas ===== -/

/-- A label returned by findMatchingGeo is one of the available labels. -/
theorem findMatchingGeo_mem {geoName : String} {l : List String} {g : String}
    (h : findMatchingGeo geoName l = some g) : g ∈ l := by
  unfold findMatchingGeo at h
  cases hf : l.find? (fun geo => normalizeGeoName geo == normalizeGeoName geoName) with
  | none => rw [hf] at h; exact absurd h (by simp)
  | some x =>
    rw [hf] at h
    by_cases hx : x = ""
    · simp [hx] at h
    · simp only [if_neg hx, Option.some.injEq] at h
      subst h
      exact List.mem_of_find?_eq_some hf

/-- Every label of the matched set is one of the available labels. -/
theorem matchedGeos_subset {template : List TemplateRegion} {allGeos : List String} {g : String}
    (h : g ∈ matchedGeos template allGeos) : g ∈ allGeos := by
  unfold matchedGeos at h
  obtain ⟨region, _, hmem⟩ := List.mem_flatMap.mp h
  rcases List.mem_append.mp hmem with hchild | hself
  · obtain ⟨c, _, hfm⟩ := List.mem_filterMap.mp hchild
    exact findMatchingGeo_mem hfm
  · rw [Option.mem_toList] at hself
    exact findMatchingGeo_mem hself

/-- Claim C1 (amended): for every template and every list of available
geography labels, the matched labels together with the unmatched bucket
give back exactly the input label set, the two are disjoint, and — when
the input list carries no duplicate label — their combined cardinality is
the input length. -/
theorem c1_label_partition (template : List TemplateRegion) (allGeos : List String) :
    (matchedGeos template allGeos).toFinset ∪ (unmatchedGeographies template allGeos).toFinset
        = allGeos.toFinset
    ∧ Disjoint (matchedGeos template allGeos).toFinset
        (unmatchedGeographies template allGeos).toFinset
    ∧ (allGeos.Nodup →
        ((matchedGeos template allGeos).toFinset
            ∪ (unmatchedGeographies template allGeos).toFinset).card = allGeos.length) := by
  have hU : (matchedGeos template allGeos).toFinset
      ∪ (unmatchedGeographies template allGeos).toFinset = allGeos.toFinset := by
    ext a
    simp only [Finset.mem_union, List.mem_toFinset, unmatchedGeographies, List.mem_filter,
      decide_eq_true_eq]
    constructor
    · rintro (h | ⟨h, _⟩)
      · exact matchedGeos_subset h
      · exact h
    · intro h
      by_cases hm : a ∈ matchedGeos template allGeos
      · exact Or.inl hm
      · exact Or.inr ⟨h, hm⟩
  refine ⟨hU, ?_, ?_⟩
  · rw [Finset.disjoint_left]
    intro a ha hb
    rw [List.mem_toFinset] at ha hb
    simp only [unmatchedGeographies, List.mem_filter, decide_eq_true_eq] at hb
    exact hb.2 ha
  · intro hnd
    rw [hU]
    exact List.toFinset_card_of_nodup hnd

/-- Witness for C1 at a concrete duplicate-free label list. -/
theorem c1_label_partition_witness :
    ((matchedGeos GEOGRAPHY_HIERARCHY ["U.S.", "Atlantis"]).toFinset
        ∪ (unmatchedGeographies GEOGRAPHY_HIERARCHY ["U.S.", "Atlantis"]).toFinset).card
      = (["U.S.", "Atlantis"] : List String).length :=
  (c1_label_partition GEOGRAPHY_HIERARCHY ["U.S.", "Atlantis"]).2.2 (by decide)

/-- Counterexample for C1 as stated: on the duplicated input list the union
of matched and unmatched labels has cardinality 1, not the input length 2. -/
theorem c1_cardinality_fails_on_duplicates :
    ¬ (((matchedGeos GEOGRAPHY_HIERARCHY ["U.S.", "U.S."]).toFinset
        ∪ (unmatchedGeographies GEOGRAPHY_HIERARCHY ["U.S.", "U.S."]).toFinset).card
      = (["U.S.", "U.S."] : List String).length) := by decide

/-- Claim C5 (amended): normalization lower-cases, trims, strips periods and
collapses whitespace, and — provided no available label is the empty
string — a query matches some available label iff one has an equal
normalized form; the three U.S. spellings normalize equal while the
spelled-out name does not match the template. -/
theorem c5_normalization_matching :
    (∀ (geoName : String) (allGeos : List String), "" ∉ allGeos →
        ((findMatchingGeo geoName allGeos).isSome = true ↔
          ∃ g ∈ allGeos, normalizeGeoName g = normalizeGeoName geoName))
    ∧ normalizeGeoName "U.S." = "us"
    ∧ normalizeGeoName "US" = "us"
    ∧ normalizeGeoName "u.s." = "us"
    ∧ normalizeGeoName "united   states" ≠ normalizeGeoName "U.S." := by
  refine ⟨?_, by decide, by decide, by decide, by decide⟩
  intro geoName allGeos hne
  unfold findMatchingGeo
  cases hf : allGeos.find? (fun geo => normalizeGeoName geo == normalizeGeoName geoName) with
  | none =>
    refine iff_of_false (by simp) ?_
    rintro ⟨g, hg, heq⟩
    have hgn := List.find?_eq_none.mp hf g hg
    simp [heq] at hgn
  | some x =>
    have hx : x ∈ allGeos := List.mem_of_find?_eq_some hf
    have hxe : ¬ x = "" := fun h => hne (h ▸ hx)
    have hpx := List.find?_some hf
    refine iff_of_true ?_ ⟨x, hx, by simpa using hpx⟩
    simp [hxe]

/-- Witness for C5 at a concrete pair of differently spelled labels. -/
theorem c5_normalization_matching_witness :
    (findMatchingGeo "U.S." ["u.s."]).isSome = true :=
  (c5_normalization_matching.1 "U.S." ["u.s."] (by decide)).mpr
    ⟨"u.s.", by decide, by decide⟩

/-- Counterexample for C5 as stated: the query and the available label
normalize to the same form, yet no match is reported, because the found
empty string is coerced to null by the JS or-else. -/
theorem c5_empty_label_never_matches :
    findMatchingGeo "." [""] = none
      ∧ normalizeGeoName "" = normalizeGeoName "." := by
  exact ⟨by decide, by decide⟩

/-- Claim C6 (confirmed): a template region appears in the resolver's
output tree iff it has a canonical self-match or at least one matched
child; a region with neither is pruned. -/
theorem c6_node_retention (template : List TemplateRegion) (allGeos : List String)
    (r : TemplateRegion) (hr : r ∈ template) :
    resolveRegion allGeos r ∈ buildHierarchy template allGeos ↔
      ((findMatchingGeo r.name allGeos).isSome = true
        ∨ ∃ c ∈ r.children, (findMatchingGeo c allGeos).isSome = true) := by
  have hex : (resolveRegion allGeos r).existsInData = true ↔
      ((findMatchingGeo r.name allGeos).isSome = true
        ∨ ∃ c ∈ r.children, (findMatchingGeo c allGeos).isSome = true) := by
    simp only [resolveRegion, Bool.or_eq_true, decide_eq_true_eq]
    constructor
    · rintro (h | h)
      · exact Or.inl h
      · obtain ⟨b, hb⟩ := List.exists_mem_of_length_pos h
        obtain ⟨c, hc, hfm⟩ := List.mem_filterMap.mp hb
        exact Or.inr ⟨c, hc, by simp [hfm]⟩
    · rintro (h | ⟨c, hc, hfm⟩)
      · exact Or.inl h
      · refine Or.inr ?_
        obtain ⟨g, hg⟩ := Option.isSome_iff_exists.mp hfm
        have : g ∈ r.children.filterMap (fun child => findMatchingGeo child allGeos) :=
          List.mem_filterMap.mpr ⟨c, hc, hg⟩
        exact List.length_pos_of_mem this
  constructor
  · intro hmem
    exact hex.mp (List.mem_filter.mp hmem).2
  · intro hcond
    exact List.mem_filter.mpr ⟨List.mem_map_of_mem _ hr, hex.mpr hcond⟩

/-- Witness for C6: North America is retained when only U.S. is available. -/
theorem c6_node_retention_witness :
    resolveRegion ["U.S."] ⟨"North America", ["U.S.", "Canada"]⟩
      ∈ buildHierarchy GEOGRAPHY_HIERARCHY ["U.S."] :=
  (c6_node_retention GEOGRAPHY_HIERARCHY ["U.S."] ⟨"North America", ["U.S.", "Canada"]⟩
    (by decide)).mpr (Or.inr ⟨"U.S.", by decide, by decide⟩)

/-- Claim C8 (confirmed): every child of every output node carries a label
taken verbatim from the available labels, and a node's own name can be a
template placeholder when only its children matched. -/
theorem c8_children_canonical :
    (∀ (template : List TemplateRegion) (allGeos : List String) (node : ResolvedRegion)
        (c : String), node ∈ buildHierarchy template allGeos →
        c ∈ node.children.getD [] → c ∈ allGeos)
    ∧ ∃ node ∈ buildHierarchy GEOGRAPHY_HIERARCHY ["U.S."],
        node.name ∉ (["U.S."] : List String) ∧ node.children.getD [] ≠ [] := by
  constructor
  · intro template allGeos node c hnode hc
    obtain ⟨r, _, hres⟩ := List.mem_map.mp (List.mem_filter.mp hnode).1
    subst hres
    by_cases hl : 0 < (r.children.filterMap (fun child => findMatchingGeo child allGeos)).length
    · simp only [resolveRegion, if_pos hl, Option.getD_some] at hc
      obtain ⟨_, _, hfm⟩ := List.mem_filterMap.mp hc
      exact findMatchingGeo_mem hfm
    · simp [resolveRegion, if_neg hl] at hc
  · exact ⟨⟨"North America", some ["U.S."], true⟩, by decide, by decide, by decide⟩

/-- Witness for C8 at the concrete single-label dataset. -/
theorem c8_children_canonical_witness :
    ("U.S." : String) ∈ (["U.S."] : List String) :=
  c8_children_canonical.1 GEOGRAPHY_HIERARCHY ["U.S."]
    ⟨"North America", some ["U.S."], true⟩ "U.S." (by decide) (by decide)

/-- Erasing a list of labels from a set leaves labels outside the list
untouched. -/
theorem mem_foldl_erase {g : String} : ∀ {l : List String}, g ∉ l →
    ∀ (s : Finset String), (g ∈ l.foldl (fun s geo => s.erase geo) s) ↔ g ∈ s := by
  intro l
  induction l with
  | nil => intro _ s; simp
  | cons a l ih =>
    intro h s
    have hne : g ≠ a := fun hga => h (hga ▸ List.mem_cons_self a l)
    have hnl : g ∉ l := fun hgl => h (List.mem_cons_of_mem a hgl)
    rw [List.foldl_cons, ih hnl, Finset.mem_erase]
    exact ⟨fun hp => hp.2, fun hp => ⟨hne, hp⟩⟩

/-- Inserting a list of labels into a set leaves labels outside the list
untouched. -/
theorem mem_foldl_insert {g : String} : ∀ {l : List String}, g ∉ l →
    ∀ (s : Finset String), (g ∈ l.foldl (fun s geo => insert geo s) s) ↔ g ∈ s := by
  intro l
  induction l with
  | nil => intro _ s; simp
  | cons a l ih =>
    intro h s
    have hne : g ≠ a := fun hga => h (hga ▸ List.mem_cons_self a l)
    have hnl : g ∉ l := fun hgl => h (List.mem_cons_of_mem a hgl)
    rw [List.foldl_cons, ih hnl, Finset.mem_insert]
    exact ⟨fun hp => hp.resolve_left hne, fun hp => Or.inr hp⟩

/-- Claim C9 (confirmed): the region-level toggle changes membership only
for the region's own data labels; every geography outside them keeps its
selection status. -/
theorem c9_region_toggle_frame (allGeographies : List String) (region : ResolvedRegion)
    (current : Finset String) (g : String) (hg : g ∉ regionGeos allGeographies region) :
    (g ∈ handleSelectRegion allGeographies region current ↔ g ∈ current) := by
  unfold handleSelectRegion
  by_cases hall : (regionGeos allGeographies region).all (fun geo => decide (geo ∈ current))
  · rw [if_pos hall]
    exact mem_foldl_erase hg current
  · rw [if_neg hall]
    exact mem_foldl_insert hg current

/-- Witness for C9: toggling North America never touches the unrelated
selected geography X. -/
theorem c9_region_toggle_frame_witness :
    (("X" : String) ∈ handleSelectRegion ["U.S.", "Canada", "X"]
        ⟨"North America", some ["U.S.", "Canada"], true⟩ ({"X"} : Finset String)
      ↔ ("X" : String) ∈ ({"X"} : Finset String)) :=
  c9_region_toggle_frame ["U.S.", "Canada", "X"]
    ⟨"North America", some ["U.S.", "Canada"], true⟩ {"X"} "X" (by decide)

/-- Claim C7 (confirmed): with an empty search term and both dropdown
filters at the no-restriction value all, the filter stage returns every
input row, record for record. -/
theorem c7_no_restriction_identity (rows : List Row) :
    filteredRows "" "all" "all" rows = rows
    ∧ (filteredRows "" "all" "all" rows).length = rows.length := by
  have hpass : ∀ row, rowPasses "" "all" "all" row = true := by
    intro row
    simp [rowPasses]
  have heq : filteredRows "" "all" "all" rows = rows := by
    unfold filteredRows
    exact List.filter_eq_self.mpr (fun a _ => hpass a)
  exact ⟨heq, by rw [heq]⟩

/-- The keys of a built row are exactly the header list. -/
theorem buildRow_keys (headers : List String) (raw : List (Option String)) :
    (buildRow headers raw).map Prod.fst = headers := by
  unfold buildRow
  rw [List.map_map]
  have : (Prod.fst ∘ fun ih : Nat × String => (ih.2, (raw.getD ih.1 none).getD ""))
      = Prod.snd := rfl
  rw [this, List.enum_map_snd]

/-- Claim C10 (confirmed): every successful loader response has rows keyed
exactly by the headers, every kept row has some non-empty field (fully
empty sheet rows are dropped, and the coalescing step leaves no null or
undefined value), and totalRows counts the returned rows. -/
theorem c10_loader_invariants (rawData : List (List (Option String))) (res : CrossResult)
    (h : loadCrossCustomer rawData = some res) :
    (∀ row ∈ res.rows, row.map Prod.fst = res.headers ∧ ∃ kv ∈ row, kv.2 ≠ "")
    ∧ res.totalRows = res.rows.length := by
  unfold loadCrossCustomer at h
  by_cases hlen : rawData.length < 2
  · rw [if_pos hlen] at h
    exact absurd h (by simp)
  · rw [if_neg hlen] at h
    injection h with h
    subst h
    refine ⟨?_, rfl⟩
    intro row hrow
    have hmem := List.mem_filter.mp hrow
    obtain ⟨raw, _, hbuild⟩ := List.mem_map.mp hmem.1
    constructor
    · rw [← hbuild]
      exact buildRow_keys _ raw
    · have hne := hmem.2
      simp only [rowNonEmpty, List.any_eq_true, bne_iff_ne, ne_eq] at hne
      obtain ⟨kv, hkv, hkvne⟩ := hne
      exact ⟨kv, hkv, hkvne⟩

/-- A concrete successful loader response used by the C10 witness. -/
def crossExample : CrossResult :=
  ⟨["H1", "H2"], [[("H1", "a"), ("H2", "")]], 1⟩

/-- Witness for C10 at a concrete three-row sheet with one fully empty row. -/
theorem c10_loader_invariants_witness :
    (∀ row ∈ crossExample.rows,
        row.map Prod.fst = crossExample.headers ∧ ∃ kv ∈ row, kv.2 ≠ "")
    ∧ crossExample.totalRows = crossExample.rows.length :=
  c10_loader_invariants [[some "H1", some "H2"], [some "a", none], [none, none]]
    crossExample (by decide)

/-- Claim C3 (confirmed): with no advancedSegments entry of the criteria's
segment type and no explicit level, the effective aggregation level is 2
and the level-aggregated strategy is selected; with at least one matching
entry the effective level is null whatever the criteria's level says. -/
theorem c3_effective_aggregation_level (filters : FilterCriteria) :
    ((∀ seg ∈ filters.advancedSegments, seg.type ≠ filters.segmentType) →
        filters.aggregationLevel = none →
        effectiveAggregationLevel filters = some 2 ∧ useLineChartData filters = true)
    ∧ ((∃ seg ∈ filters.advancedSegments, seg.type = filters.segmentType) →
        effectiveAggregationLevel filters = none) := by
  constructor
  · intro hnone hlvl
    have hfilter : filters.advancedSegments.filter
        (fun seg => seg.type == filters.segmentType) = [] := by
      rw [List.filter_eq_nil_iff]
      intro seg hseg
      simpa using hnone seg hseg
    have heff : effectiveAggregationLevel filters = some 2 := by
      unfold effectiveAggregationLevel
      simp [hfilter, hlvl]
    exact ⟨heff, by simp [useLineChartData, heff]⟩
  · rintro ⟨seg, hseg, heq⟩
    have hpos : 0 < (filters.advancedSegments.filter
        (fun s => s.type == filters.segmentType)).length := by
      refine List.length_pos_of_mem (a := seg) ?_
      rw [List.mem_filter]
      exact ⟨hseg, by simp [heq]⟩
    unfold effectiveAggregationLevel
    simp [hpos]

/-- Witness for C3 at a criteria without and a criteria with a matching
advanced-segment selection. -/
theorem c3_effective_aggregation_level_witness :
    (effectiveAggregationLevel ⟨ViewMode.segmentMode, "By Type", [], [], [], none, 2020, 2021⟩
        = some 2
      ∧ useLineChartData ⟨ViewMode.segmentMode, "By Type", [], [], [], none, 2020, 2021⟩ = true)
    ∧ effectiveAggregationLevel
        ⟨ViewMode.segmentMode, "By Type", [], [], [⟨"By Type", "Tablets"⟩], some 3, 2020, 2021⟩
        = none :=
  ⟨(c3_effective_aggregation_level _).1 (by simp) rfl,
   (c3_effective_aggregation_level _).2 ⟨⟨"By Type", "Tablets"⟩, by simp, rfl⟩⟩

/-- Claim C4 (confirmed): geography mode unconditionally substitutes the
fixed By Region segment type; every other view mode passes the criteria's
segment type through unchanged. -/
theorem c4_geography_mode_segment_type (filters : FilterCriteria) :
    (filters.viewMode = ViewMode.geographyMode →
        effectiveSegmentType filters = "By Region")
    ∧ (filters.viewMode ≠ ViewMode.geographyMode →
        effectiveSegmentType filters = filters.segmentType) := by
  constructor
  · intro h
    simp [effectiveSegmentType, h]
  · intro h
    simp [effectiveSegmentType, h]

/-- Witness for C4 at a geography-mode and a segment-mode criteria. -/
theorem c4_geography_mode_segment_type_witness :
    effectiveSegmentType ⟨ViewMode.geographyMode, "By Type", [], [], [], none, 2020, 2021⟩
        = "By Region"
    ∧ effectiveSegmentType ⟨ViewMode.segmentMode, "By Type", [], [], [], none, 2020, 2021⟩
        = "By Type" :=
  ⟨(c4_geography_mode_segment_type _).1 rfl,
   (c4_geography_mode_segment_type _).2 (by decide)⟩

/-- Folding over a concatenated image splits into a fold of folds. -/
theorem foldl_flatMap_eq {α β γ : Type} (f : α → List β) (step : γ → β → γ) :
    ∀ (l : List α) (init : γ),
      (l.flatMap f).foldl step init = l.foldl (fun acc x => (f x).foldl step acc) init := by
  intro l
  induction l with
  | nil => intro init; rfl
  | cons x xs ih =>
    intro init
    rw [List.flatMap_cons, List.foldl_append, List.foldl_cons, ih]

/-- The code's Set-walk over the prepared points equals first-seen
deduplication of all entry keys in point order. -/
theorem extract_eq_dedupFirstSeen (prepared : List SeriesPoint) :
    extractSeriesFromPreparedData prepared
      = dedupFirstSeen (prepared.flatMap (fun p => p.entries.map Prod.fst)) := by
  have hinner : ∀ (entries : List (String × Int)) (acc : List String),
      entries.foldl (fun acc2 kv => if kv.1 ∈ acc2 then acc2 else acc2 ++ [kv.1]) acc
        = (entries.map Prod.fst).foldl
            (fun acc2 k => if k ∈ acc2 then acc2 else acc2 ++ [k]) acc := by
    intro entries acc
    rw [List.foldl_map]
  cases prepared with
  | nil => rfl
  | cons p ps =>
    unfold extractSeriesFromPreparedData dedupFirstSeen
    rw [if_neg (by simp), foldl_flatMap_eq]
    simp only [hinner]

/-- Claim C2 (amended): in segment mode and geography mode the series list
is the ordered set of distinct entry keys across all prepared points in
first-seen order; in matrix mode it is instead the ordered set of distinct
geography-segment pairs of the filtered records, in record order. -/
theorem c2_series_extraction (dataset : List MarketRecord) (filters : FilterCriteria) :
    ((filters.viewMode = ViewMode.segmentMode ∨ filters.viewMode = ViewMode.geographyMode) →
        (multiLineChartData dataset filters).series
          = dedupFirstSeen ((multiLineChartData dataset filters).prepared.flatMap
              (fun p => p.entries.map Prod.fst)))
    ∧ (filters.viewMode = ViewMode.matrix →
        (multiLineChartData dataset filters).series
          = dedupFirstSeen ((multiLineChartData dataset filters).filtered.map
              (fun r => r.geography ++ "::" ++ r.segment))) := by
  constructor
  · rintro (h | h) <;>
      simp only [multiLineChartData, h, ← extract_eq_dedupFirstSeen]
  · intro h
    simp only [multiLineChartData, h]

/-- The dataset of the C2 witness and counterexample: two records whose
record order disagrees with their year order. -/
def c2dataset : List MarketRecord :=
  [⟨2021, "A", "s1", "By Type", 1⟩, ⟨2020, "B", "s2", "By Type", 2⟩]

/-- A matrix-mode criteria whose advanced selection suppresses the level-2
default, so the ungrouped preparer runs. -/
def c2matrixFilters : FilterCriteria :=
  ⟨ViewMode.matrix, "By Type", [], [], [⟨"By Type", "s1"⟩], none, 2020, 2021⟩

/-- Witness for C2 at a segment-mode and at the matrix-mode criteria. -/
theorem c2_series_extraction_witness :
    (multiLineChartData c2dataset ⟨ViewMode.segmentMode, "By Type", [], [], [], none, 2020, 2021⟩).series
        = dedupFirstSeen ((multiLineChartData c2dataset
            ⟨ViewMode.segmentMode, "By Type", [], [], [], none, 2020, 2021⟩).prepared.flatMap
            (fun p => p.entries.map Prod.fst))
    ∧ (multiLineChartData c2dataset c2matrixFilters).series
        = dedupFirstSeen ((multiLineChartData c2dataset c2matrixFilters).filtered.map
            (fun r => r.geography ++ "::" ++ r.segment)) :=
  ⟨(c2_series_extraction c2dataset _).1 (Or.inl rfl),
   (c2_series_extraction c2dataset c2matrixFilters).2 rfl⟩

/-- Counterexample for C2 as stated: in matrix mode the series list is
built from the filtered records in record order, which differs from the
first-seen key order of the year-sorted prepared points. -/
theorem c2_matrix_series_from_raw_records :
    (multiLineChartData c2dataset c2matrixFilters).series
      ≠ dedupFirstSeen ((multiLineChartData c2dataset c2matrixFilters).prepared.flatMap
          (fun p => p.entries.map Prod.fst)) := by decide

end Croissant
